import Mathlib

/-!
Verification of the advertising-metrics script `ziprecruiter_ad_metrics.py`.

The embedding below translates the arithmetic core of the script into Lean:

* Python `float` is modelled as `ℚ` (exact rational arithmetic, the usual
  idealisation of IEEE floats for "within floating-point tolerance" claims).
* Python `dict[str, float]` built by `defaultdict(float)` is modelled as an
  insertion-ordered association list `Credits`.  `addCredit` models
  `attribution[ch] += w` (accumulate, insert on first access) and `setCredit`
  models the plain assignment `attribution[ch] = w` (overwrite, insert if
  absent).  The distinction matters: `u_shaped_attribution` in the source uses
  plain assignment for the first and last touchpoints.
* A `Touchpoint` carries only its `channel`; the attribution methods of the
  source read no other field of the touchpoint dictionaries.
* The time-decay weight `0.5 ** ((n - i - 1) / half_life_days)` equals
  `decay ^ (n - i - 1)` for the per-step factor `decay = 0.5 ^ (1 / half_life)`.
  The model is parameterised by that factor `decay : ℚ`; half-life values
  `half_life > 0` correspond exactly to factors with `0 < decay < 1`
  (and any `0 < decay` gives a positive, normalisable weight vector).
-/

/-- A marketing touchpoint.  The source stores a dictionary with keys
`touchpoint_id`, `channel`, `timestamp`, `interaction`, `device`; every
attribution model reads only `channel`, so only that field is modelled. -/
structure Touchpoint where
  channel : String
deriving DecidableEq, Repr

/-- Insertion-ordered association list modelling a Python `dict[str, float]`. -/
abbrev Credits := List (String × ℚ)

/-- Model of `attribution[ch] += w` on a `defaultdict(float)`: add to the
existing entry, or append a new entry with initial value `0 + w = w`. -/
def addCredit : Credits → String → ℚ → Credits
  | [], ch, w => [(ch, w)]
  | (k, v) :: rest, ch, w =>
      if k = ch then (k, v + w) :: rest else (k, v) :: addCredit rest ch w

/-- Model of the plain assignment `attribution[ch] = w`: overwrite the
existing entry, or append a new entry. -/
def setCredit : Credits → String → ℚ → Credits
  | [], ch, w => [(ch, w)]
  | (k, v) :: rest, ch, w =>
      if k = ch then (k, w) :: rest else (k, v) :: setCredit rest ch w

/-- Value stored for a channel (`0.0` when absent, as for `defaultdict(float)`). -/
def lookupCredit : Credits → String → ℚ
  | [], _ => 0
  | (k, v) :: rest, c => if k = c then v else lookupCredit rest c

/-- Sum of all stored credits, `sum(attribution.values())`. -/
def sumCredits (m : Credits) : ℚ := (m.map Prod.snd).sum

/-- Model of `AttributionModel.last_click_attribution`: empty dict on an empty journey,
otherwise `{touchpoints[-1]['channel']: 1.0}`. -/
def last_click_attribution (touchpoints : List Touchpoint) : Credits :=
  match touchpoints.getLast? with
  | none => []
  | some tp => [(tp.channel, 1)]

/-- Model of `AttributionModel.first_click_attribution`: empty dict on an empty journey,
otherwise `{touchpoints[0]['channel']: 1.0}`. -/
def first_click_attribution (touchpoints : List Touchpoint) : Credits :=
  match touchpoints with
  | [] => []
  | tp :: _ => [(tp.channel, 1)]

/-- Model of `AttributionModel.linear_attribution`: each touchpoint contributes
`1.0 / len(touchpoints)` to its channel, accumulating via `+=`. -/
def linear_attribution (touchpoints : List Touchpoint) : Credits :=
  if touchpoints = [] then []
  else
    let credit_per_touch : ℚ := 1 / touchpoints.length
    touchpoints.foldl
      (fun attribution tp => addCredit attribution tp.channel credit_per_touch) []

/-- Model of `AttributionModel.time_decay_attribution`.  Touchpoint `i` (0-indexed) gets
raw weight `decay ^ (n - i - 1)` where `decay` stands for the per-step factor
`0.5 ** (1 / half_life_days)` of the source expression
`0.5 ** ((len(touchpoints) - i - 1) / half_life_days)`; weights are then
normalised by their sum and accumulated per channel via `+=`. -/
def time_decay_attribution (touchpoints : List Touchpoint) (decay : ℚ) : Credits :=
  if touchpoints = [] then []
  else
    let weights := touchpoints.enum.map
      (fun p => decay ^ (touchpoints.length - p.1 - 1))
    let total_weight := weights.sum
    let normalized_weights := weights.map (fun w => w / total_weight)
    (touchpoints.zip normalized_weights).foldl
      (fun attribution p => addCredit attribution p.1.channel p.2) []

/-- Model of `AttributionModel.u_shaped_attribution`.  Faithful to the source: the
single-touch, two-touch, and first/last credits are written with plain dict
assignment (`setCredit`), while the interior credits accumulate (`addCredit`). -/
def u_shaped_attribution (touchpoints : List Touchpoint)
    (first_last_weight : ℚ) : Credits :=
  match touchpoints with
  | [] => []
  | [tp] => setCredit [] tp.channel 1
  | [tp1, tp2] => setCredit (setCredit [] tp1.channel (0.5 : ℚ)) tp2.channel (0.5 : ℚ)
  | tp1 :: tp2 :: tp3 :: rest =>
      let attribution := setCredit [] tp1.channel first_last_weight
      let attribution := setCredit attribution
        ((tp1 :: tp2 :: tp3 :: rest).getLast (List.cons_ne_nil _ _)).channel
        first_last_weight
      let middle_credit := (1 - 2 * first_last_weight) /
        (((tp1 :: tp2 :: tp3 :: rest).length : ℚ) - 2)
      (tp2 :: tp3 :: rest).dropLast.foldl
        (fun m tp => addCredit m tp.channel middle_credit) attribution

/-- A `float` result of the metric calculators, which can be `float('inf')`
(returned by `calculate_cpa` and `calculate_cac` when the denominator is 0). -/
inductive MetricVal where
  | val (x : ℚ)
  | infinity
deriving DecidableEq, Repr

/-- One row of `ZipRecruiterAdMetrics._set_industry_benchmarks`. -/
structure Thresholds where
  poor : ℚ
  average : ℚ
  good : ℚ
  excellent : ℚ
deriving DecidableEq, Repr

def industry_benchmarks_ctr : Thresholds := ⟨0.005, 0.015, 0.03, 0.05⟩

def industry_benchmarks_cvr : Thresholds := ⟨0.005, 0.015, 0.03, 0.05⟩

def industry_benchmarks_cac : Thresholds := ⟨1500, 800, 500, 300⟩

def industry_benchmarks_roas : Thresholds := ⟨1.5, 3.0, 5.0, 8.0⟩

/-- Model of the `EmployerSubscription` dataclass. -/
structure EmployerSubscription where
  tier : String
  monthly_price : ℚ
  avg_lifetime_months : ℚ
  typical_jobs_posted : ℕ
deriving DecidableEq, Repr

/-- Model of `EmployerSubscription.get_tiers`. -/
def get_tiers : List (String × EmployerSubscription) :=
  [("basic", ⟨"Basic", 299, 6, 1⟩),
   ("pro", ⟨"Pro", 599, 12, 5⟩),
   ("enterprise", ⟨"Enterprise", 999, 18, 20⟩)]

/-!
The metric calculators below mirror `ZipRecruiterAdMetrics` method by method.
Each returns the numeric result paired with the interpretation string chosen by
the same threshold comparisons as the source; the numeric values interpolated
into the source f-strings are omitted from the message text, the branch
structure and the fixed edge-case messages are kept verbatim.
-/

/-- Model of `ZipRecruiterAdMetrics.calculate_roas`. -/
def calculate_roas (revenue ad_spend : ℚ) : MetricVal × String :=
  if ad_spend = 0 then (MetricVal.val 0, "Cannot calculate ROAS with zero ad spend")
  else
    let roas := revenue / ad_spend
    let interpretation :=
      if roas < industry_benchmarks_roas.poor then
        "Poor ROAS: Campaign is unprofitable. Consider pausing."
      else if roas < industry_benchmarks_roas.average then
        "Below average ROAS: Needs optimization."
      else if roas < industry_benchmarks_roas.good then
        "Average ROAS: Acceptable but room for improvement."
      else if roas < industry_benchmarks_roas.excellent then
        "Good ROAS: Strong performance."
      else "Excellent ROAS: Top-tier campaign performance!"
    (MetricVal.val roas, interpretation)

/-- Model of `ZipRecruiterAdMetrics.calculate_roi`. -/
def calculate_roi (revenue total_cost : ℚ) : MetricVal × String :=
  if total_cost = 0 then (MetricVal.val 0, "Cannot calculate ROI with zero cost")
  else
    let roi := (revenue - total_cost) / total_cost * 100
    let interpretation :=
      if roi < 0 then "Negative ROI: Campaign is losing money."
      else if roi < 100 then "Low ROI: Barely profitable."
      else if roi < 300 then "Moderate ROI: Acceptable returns."
      else if roi < 1000 then "Good ROI: Strong performance."
      else "Exceptional ROI: Outstanding returns!"
    (MetricVal.val roi, interpretation)

/-- Model of `ZipRecruiterAdMetrics.calculate_cpa`. -/
def calculate_cpa (ad_spend : ℚ) (conversions : ℤ) : MetricVal × String :=
  if conversions = 0 then (MetricVal.infinity, "No conversions to calculate CPA")
  else
    let cpa := ad_spend / conversions
    let interpretation :=
      if industry_benchmarks_cac.poor < cpa then
        "High CPA: Too expensive, needs immediate attention."
      else if industry_benchmarks_cac.average < cpa then
        "Above average CPA: Consider optimization."
      else if industry_benchmarks_cac.good < cpa then
        "Average CPA: Acceptable acquisition cost."
      else "Excellent CPA: Very efficient acquisition!"
    (MetricVal.val cpa, interpretation)

/-- Model of `ZipRecruiterAdMetrics.calculate_cpm`. -/
def calculate_cpm (ad_spend : ℚ) (impressions : ℤ) : MetricVal × String :=
  if impressions = 0 then (MetricVal.val 0, "No impressions to calculate CPM")
  else
    let cpm := ad_spend / impressions * 1000
    let interpretation :=
      if cpm < 5 then "Low CPM: Great reach efficiency."
      else if cpm < 15 then "Average CPM: Standard pricing."
      else if cpm < 30 then "High CPM: Premium targeting or competitive market."
      else "Very high CPM: Consider broader targeting."
    (MetricVal.val cpm, interpretation)

/-- Model of `ZipRecruiterAdMetrics.calculate_cpc`. -/
def calculate_cpc (ad_spend : ℚ) (clicks : ℤ) : MetricVal × String :=
  if clicks = 0 then (MetricVal.val 0, "No clicks to calculate CPC")
  else
    let cpc := ad_spend / clicks
    let interpretation :=
      if cpc < 2 then "Low CPC: Excellent click cost."
      else if cpc < 5 then "Average CPC: Standard for recruitment industry."
      else if cpc < 10 then "High CPC: Competitive keywords."
      else "Very high CPC: Consider long-tail keywords."
    (MetricVal.val cpc, interpretation)

/-- Model of `ZipRecruiterAdMetrics.calculate_ctr`. -/
def calculate_ctr (clicks impressions : ℤ) : MetricVal × String :=
  if impressions = 0 then (MetricVal.val 0, "No impressions to calculate CTR")
  else
    let ctr := (clicks : ℚ) / impressions * 100
    let interpretation :=
      if ctr < industry_benchmarks_ctr.poor * 100 then
        "Poor CTR: Ad creative needs improvement."
      else if ctr < industry_benchmarks_ctr.average * 100 then
        "Below average CTR: Consider A-B testing."
      else if ctr < industry_benchmarks_ctr.good * 100 then
        "Good CTR: Engaging ad creative."
      else "Excellent CTR: Highly relevant targeting!"
    (MetricVal.val ctr, interpretation)

/-- Model of `ZipRecruiterAdMetrics.calculate_cvr`. -/
def calculate_cvr (conversions clicks : ℤ) : MetricVal × String :=
  if clicks = 0 then (MetricVal.val 0, "No clicks to calculate conversion rate")
  else
    let cvr := (conversions : ℚ) / clicks * 100
    let interpretation :=
      if cvr < industry_benchmarks_cvr.poor * 100 then
        "Poor CVR: Landing page needs optimization."
      else if cvr < industry_benchmarks_cvr.average * 100 then
        "Below average CVR: Review user experience."
      else if cvr < industry_benchmarks_cvr.good * 100 then
        "Good CVR: Solid conversion funnel."
      else "Excellent CVR: Outstanding optimization!"
    (MetricVal.val cvr, interpretation)

/-- Model of `ZipRecruiterAdMetrics.calculate_ltv`. -/
def calculate_ltv (subscription_tier : String)
    (retention_modifier : ℚ) : MetricVal × String :=
  match List.lookup subscription_tier get_tiers with
  | none => (MetricVal.val 0, "Invalid subscription tier")
  | some sub =>
      (MetricVal.val (sub.monthly_price * sub.avg_lifetime_months * retention_modifier),
       "Tier LTV: average lifetime months times monthly price")

/-- Model of `ZipRecruiterAdMetrics.calculate_cac`. -/
def calculate_cac (total_acquisition_cost : ℚ)
    (new_customers : ℤ) : MetricVal × String :=
  if new_customers = 0 then (MetricVal.infinity, "No customers acquired")
  else
    let cac := total_acquisition_cost / new_customers
    let interpretation :=
      if industry_benchmarks_cac.poor < cac then
        "High CAC: Unsustainable acquisition cost."
      else if industry_benchmarks_cac.average < cac then
        "Above average CAC: Needs efficiency improvements."
      else if industry_benchmarks_cac.good < cac then
        "Acceptable CAC: Room for optimization."
      else "Excellent CAC: Very efficient acquisition!"
    (MetricVal.val cac, interpretation)

/-- Model of `ZipRecruiterAdMetrics.calculate_mer`. -/
def calculate_mer (total_revenue total_ad_spend : ℚ) : MetricVal × String :=
  if total_ad_spend = 0 then (MetricVal.val 0, "Cannot calculate MER with zero ad spend")
  else
    let mer := total_revenue / total_ad_spend
    let interpretation :=
      if mer < 2 then "Low MER: Overall marketing needs review."
      else if mer < 4 then "Average MER: Acceptable blended performance."
      else if mer < 6 then "Good MER: Strong overall efficiency."
      else "Excellent MER: Outstanding marketing performance!"
    (MetricVal.val mer, interpretation)

/-- Model of `ZipRecruiterAdMetrics.calculate_breakeven_roas`. -/
def calculate_breakeven_roas (profit_margin : ℚ) : MetricVal × String :=
  if profit_margin ≤ 0 ∨ 1 < profit_margin then
    (MetricVal.val 0, "Invalid profit margin (must be between 0 and 1)")
  else
    (MetricVal.val (1 / profit_margin),
     "Break-even ROAS: the reciprocal of the profit margin")

/-- Per-channel performance figures consumed by the budget allocator
(`channel_performance[channel]`); the source reads these three keys with
`.get` defaults `roas = 1`, `cvr = 0.01`, `volume_potential = 1`. -/
structure ChannelPerf where
  roas : ℚ
  cvr : ℚ
  volume_potential : ℚ
deriving DecidableEq, Repr

/-- One value of the allocation dict produced by
`CampaignOptimizer.calculate_optimal_budget_allocation`. -/
structure AllocationEntry where
  budget : ℚ
  percentage : ℚ
  efficiency_score : ℚ
deriving DecidableEq, Repr

/-- Weighted efficiency score
`(roas * 0.5) + (cvr * 100 * 0.3) + (volume_potential * 0.2)`. -/
def efficiency_score (perf : ChannelPerf) : ℚ :=
  perf.roas * 0.5 + perf.cvr * 100 * 0.3 + perf.volume_potential * 0.2

/-- The allocator's `total_score`: sum of all channel efficiency scores. -/
def total_efficiency (channel_performance : List (String × ChannelPerf)) : ℚ :=
  (channel_performance.map (fun p => efficiency_score p.2)).sum

/-- The proportional share `(score / total_score) * total_budget` clamped to
min 10% and max 40% of the total, exactly as in the source:
`max(total_budget * 0.10, ...)` then `min(total_budget * 0.40, ...)`. -/
def clamped_budget (total_budget score total_score : ℚ) : ℚ :=
  min (total_budget * 0.40) (max (total_budget * 0.10) (score / total_score * total_budget))

/-- Round half to even at integer precision, the tie-breaking used by Python's
built-in `round`. -/
def roundHalfEven (x : ℚ) : ℤ :=
  let f := ⌊x⌋
  let r := x - f
  if r < 1/2 then f
  else if 1/2 < r then f + 1
  else if f % 2 = 0 then f else f + 1

/-- Python's `round(x, ndigits)` on the exact rational model. -/
def pythonRound (ndigits : ℕ) (x : ℚ) : ℚ :=
  (roundHalfEven (x * 10 ^ ndigits) : ℚ) / 10 ^ ndigits

/-- The allocation dict as built inside the proportional-allocation loop,
before the final residual correction. -/
def rawAllocation (total_budget : ℚ)
    (channel_performance : List (String × ChannelPerf)) :
    List (String × AllocationEntry) :=
  let total_score := total_efficiency channel_performance
  channel_performance.map (fun p =>
    let score := efficiency_score p.2
    let channel_budget := clamped_budget total_budget score total_score
    (p.1, AllocationEntry.mk (pythonRound 2 channel_budget)
      (pythonRound 1 (channel_budget / total_budget * 100))
      (pythonRound 2 score)))

/-- Sum of the `budget` fields, `sum(a['budget'] for a in allocation.values())`. -/
def allocSum (allocation : List (String × AllocationEntry)) : ℚ :=
  (allocation.map (fun p => p.2.budget)).sum

/-- Fold underlying Python's `max(..., key=...)`: keeps the first entry whose
budget is maximal (replacement only on strictly larger budget). -/
def bestAllocation (init : String × AllocationEntry)
    (l : List (String × AllocationEntry)) : String × AllocationEntry :=
  l.foldl (fun best p => if best.2.budget < p.2.budget then p else best) init

/-- Model of `max(allocation.keys(), key=lambda k: allocation[k]['budget'])`; `none`
models the `ValueError` Python raises on an empty dict. -/
def maxBudgetKey : List (String × AllocationEntry) → Option String
  | [] => none
  | x :: rest => some (bestAllocation x rest).1

/-- Model of `allocation[largest]['budget'] += amount` for the first entry keyed `largest`. -/
def addToBudget : List (String × AllocationEntry) → String → ℚ →
    List (String × AllocationEntry)
  | [], _, _ => []
  | (k, e) :: rest, key, amount =>
      if k = key then (k, AllocationEntry.mk (e.budget + amount) e.percentage e.efficiency_score) :: rest
      else (k, e) :: addToBudget rest key amount

/-- Model of `CampaignOptimizer.calculate_optimal_budget_allocation`.  `none` models the
two inputs on which the source raises instead of returning: a non-empty
performance dict whose efficiency scores sum to 0 (`ZeroDivisionError` in
`score / total_score`) and an empty performance dict with a non-zero budget
(`ValueError` from `max` over an empty sequence). -/
def calculate_optimal_budget_allocation (total_budget : ℚ)
    (channel_performance : List (String × ChannelPerf)) :
    Option (List (String × AllocationEntry)) :=
  if total_efficiency channel_performance = 0 ∧ channel_performance ≠ [] then none
  else
    let allocation := rawAllocation total_budget channel_performance
    let total_allocated := allocSum allocation
    if total_allocated = total_budget then some allocation
    else
      match maxBudgetKey allocation with
      | none => none
      | some largest =>
          some (addToBudget allocation largest (total_budget - total_allocated))

/-- Claim C1 (code bug): the claim states that every attribution policy
returns credits summing to 1.0 on every non-empty touchpoint sequence, but
`u_shaped_attribution` loses credit whenever the first and last touchpoints
share a channel: the dict assignment for the last touchpoint overwrites the
credit assigned to the first.  On the journey `[a, b, a]` with the default
`first_last_weight = 0.4` the credits sum to 0.6, not 1.0. -/
theorem u_shaped_attribution_sum_bug :
    sumCredits (u_shaped_attribution [⟨"a"⟩, ⟨"b"⟩, ⟨"a"⟩] (2/5)) = 3/5 := by
  simp [u_shaped_attribution, setCredit, addCredit, sumCredits]
  norm_num

/-- Claim C2 (code bug): the claim states that for `n = 2` each of the two
elements contributes 50% to its channel, with same-channel credits
accumulating to 100%.  The source instead assigns (rather than accumulates)
0.5 twice to the same dict key, so the journey `[a, a]` yields the mapping
`a ↦ 0.5` instead of `a ↦ 1.0`. -/
theorem u_shaped_attribution_two_touch_bug :
    u_shaped_attribution [⟨"a"⟩, ⟨"a"⟩] (2/5) = [("a", 1/2)] := by
  simp [u_shaped_attribution, setCredit, addCredit]
  norm_num

/-- Claim C7: first-click attribution returns exactly the mapping sending the
first element's channel to 1.0, last-click returns exactly the mapping sending
the last element's channel to 1.0, and on a one-element journey the two
policies return the same mapping. -/
theorem first_last_click_correct (touchpoints : List Touchpoint)
    (h : touchpoints ≠ []) :
    first_click_attribution touchpoints = [((touchpoints.head h).channel, 1)] ∧
    last_click_attribution touchpoints = [((touchpoints.getLast h).channel, 1)] ∧
    ∀ tp : Touchpoint,
      first_click_attribution [tp] = last_click_attribution [tp] := by
  refine ⟨?_, ?_, fun tp => rfl⟩
  · cases touchpoints with
    | nil => exact absurd rfl h
    | cons a t => rfl
  · rw [last_click_attribution, List.getLast?_eq_getLast _ h]

/-- Witness for C7 on the concrete journey `[a, b]`. -/
theorem first_last_click_correct_witness :
    first_click_attribution [⟨"a"⟩, ⟨"b"⟩] = [("a", 1)] :=
  (first_last_click_correct [⟨"a"⟩, ⟨"b"⟩] (by simp)).1

/-- Claim C9: on the empty touchpoint sequence every attribution policy
returns the empty mapping. -/
theorem empty_touchpoints_empty_attribution :
    first_click_attribution [] = [] ∧
    last_click_attribution [] = [] ∧
    linear_attribution [] = [] ∧
    (∀ decay : ℚ, time_decay_attribution [] decay = []) ∧
    (∀ w : ℚ, u_shaped_attribution [] w = []) :=
  ⟨rfl, rfl, rfl, fun _ => rfl, fun _ => rfl⟩

/-- Looking up after `+=`: the entry for `c` grows by `w` exactly when the
updated key is `c`. -/
theorem lookupCredit_addCredit (m : Credits) (ch : String) (w : ℚ) (c : String) :
    lookupCredit (addCredit m ch w) c =
      lookupCredit m c + if ch = c then w else 0 := by
  induction m with
  | nil =>
    by_cases h : ch = c <;> simp [addCredit, lookupCredit, h]
  | cons a t ih =>
    obtain ⟨k, v⟩ := a
    by_cases h1 : k = ch
    · subst h1
      by_cases h2 : k = c <;> simp [addCredit, lookupCredit, h2]
    · by_cases h2 : k = c
      · subst h2
        have : ¬ ch = k := fun h => h1 h.symm
        simp [addCredit, lookupCredit, h1, this]
      · simp [addCredit, lookupCredit, h1, h2, ih]

/-- The credit a fold of `+=` updates leaves on channel `c` is the initial
credit plus the weights of the matching elements. -/
theorem lookupCredit_foldl {α : Type} (chan : α → String) (wt : α → ℚ)
    (l : List α) (init : Credits) (c : String) :
    lookupCredit (l.foldl (fun m x => addCredit m (chan x) (wt x)) init) c =
      lookupCredit init c + ((l.filter (fun x => chan x == c)).map wt).sum := by
  induction l generalizing init with
  | nil => simp
  | cons a t ih =>
    rw [List.foldl_cons, ih, lookupCredit_addCredit, List.filter_cons]
    by_cases h : chan a = c
    · simp only [h, if_pos rfl, beq_self_eq_true, if_pos]
      simp only [List.map_cons, List.sum_cons]
      ring
    · have hb : (chan a == c) = false := by simpa using h
      simp [h, hb]

/-- Dividing every mapped value by a constant divides the sum. -/
theorem sum_map_div {α : Type} (l : List α) (f : α → ℚ) (d : ℚ) :
    (l.map (fun x => f x / d)).sum = (l.map f).sum / d := by
  induction l with
  | nil => simp
  | cons a t ih => simp [ih, add_div]

/-- Summing a constant over a list multiplies it by the length. -/
theorem sum_map_const {α : Type} (l : List α) (q : ℚ) :
    (l.map (fun _ => q)).sum = l.length * q := by
  induction l with
  | nil => simp
  | cons a t ih => simp [ih]; ring

/-- Zipping a list with a function of its own enumeration. -/
theorem zip_enum_map {α β : Type} (l : List α) (g : ℕ × α → β) :
    l.zip (l.enum.map g) = l.enum.map (fun p => (p.2, g p)) := by
  have h := List.zip_map' Prod.snd g l.enum
  rwa [List.enum_map_snd] at h

/-- Closed form for the credit `time_decay_attribution` leaves on a channel:
the sum of the raw decay weights of the matching positions, divided by the sum
of all raw decay weights. -/
theorem lookupCredit_time_decay (tps : List Touchpoint) (decay : ℚ) (c : String) :
    lookupCredit (time_decay_attribution tps decay) c =
      ((tps.enum.filter (fun p => p.2.channel == c)).map
          (fun p => decay ^ (tps.length - p.1 - 1))).sum /
        (tps.enum.map (fun p => decay ^ (tps.length - p.1 - 1))).sum := by
  by_cases h : tps = []
  · subst h
    simp [time_decay_attribution, lookupCredit]
  · simp only [time_decay_attribution, if_neg h]
    rw [List.map_map, zip_enum_map, List.foldl_map]
    rw [lookupCredit_foldl (fun p : ℕ × Touchpoint => p.2.channel)
      (fun p : ℕ × Touchpoint =>
        ((fun w => w / (tps.enum.map (fun p => decay ^ (tps.length - p.1 - 1))).sum) ∘
          (fun p : ℕ × Touchpoint => decay ^ (tps.length - p.1 - 1))) p)]
    simp only [lookupCredit, zero_add, Function.comp]
    rw [sum_map_div]

/-- Claim C5: time-decay attribution gives position `i` of an `n`-touchpoint
journey the raw weight `decay ^ (n - i - 1)` (the exact value of the source
weight `0.5 ** ((n - i - 1) / half_life)` with `decay = 0.5 ^ (1 / half_life)`,
so half-life values `> 0` correspond to factors `decay > 0`), normalises the
weights by their total, and accumulates them per channel; in particular a
one-element journey always receives exactly credit 1.0. -/
theorem time_decay_attribution_correct (decay : ℚ) (hd : 0 < decay) :
    (∀ (tps : List Touchpoint) (c : String),
      lookupCredit (time_decay_attribution tps decay) c =
        ((tps.enum.filter (fun p => p.2.channel == c)).map
            (fun p => decay ^ (tps.length - p.1 - 1))).sum /
          (tps.enum.map (fun p => decay ^ (tps.length - p.1 - 1))).sum) ∧
    ∀ tp : Touchpoint, time_decay_attribution [tp] decay = [(tp.channel, 1)] := by
  refine ⟨fun tps c => lookupCredit_time_decay tps decay c, fun tp => ?_⟩
  simp [time_decay_attribution, addCredit]

/-- Witness for C5: a single touchpoint gets full credit at `decay = 1/2`
(half-life 1). -/
theorem time_decay_attribution_correct_witness :
    time_decay_attribution [⟨"x"⟩] (1/2) = [("x", 1)] :=
  (time_decay_attribution_correct (1/2) (by norm_num)).2 ⟨"x"⟩

/-- Claim C6: linear attribution credits each channel with
`(number of touchpoints on that channel) / n`. -/
theorem linear_attribution_correct (touchpoints : List Touchpoint)
    (h : touchpoints ≠ []) (c : String) :
    lookupCredit (linear_attribution touchpoints) c =
      (touchpoints.countP (fun tp => tp.channel == c) : ℚ) / touchpoints.length := by
  simp only [linear_attribution, if_neg h]
  rw [lookupCredit_foldl Touchpoint.channel
    (fun _ => 1 / ((touchpoints.length : ℚ)))]
  rw [sum_map_const, List.countP_eq_length_filter]
  simp only [lookupCredit, zero_add]
  rw [mul_one_div]

/-- Witness for C6 on the journey `[a, b, a]`: channel `a` receives `2/3`. -/
theorem linear_attribution_correct_witness :
    lookupCredit (linear_attribution [⟨"a"⟩, ⟨"b"⟩, ⟨"a"⟩]) ("a") = 2/3 := by
  have h := linear_attribution_correct [⟨"a"⟩, ⟨"b"⟩, ⟨"a"⟩] (by simp) ("a")
  simpa using h

/-- With pairwise distinct channels, no element of an enumerated journey
matches a channel absent from it. -/
theorem filter_channel_nil (t : List Touchpoint) (s : ℕ) (c : String)
    (hc : c ∉ t.map Touchpoint.channel) :
    (t.enumFrom s).filter (fun p => p.2.channel == c) = [] := by
  induction t generalizing s with
  | nil => rfl
  | cons a t ih =>
    rw [List.enumFrom_cons, List.filter_cons]
    have hne : ¬ (a.channel = c) := by
      intro hac
      exact hc (by simp [← hac])
    have hb : (a.channel == c) = false := by simpa using hne
    simp only [hb]
    exact ih (s + 1) (fun hmem => hc (by simp [List.mem_map] at hmem ⊢; tauto))

/-- With pairwise distinct channels, exactly one enumerated touchpoint matches
the channel of position `i`. -/
theorem filter_channel_enumFrom (tps : List Touchpoint) (s i : ℕ)
    (hi : i < tps.length) (hnd : (tps.map Touchpoint.channel).Nodup) :
    (tps.enumFrom s).filter
        (fun p => p.2.channel == (tps.get ⟨i, hi⟩).channel) =
      [(s + i, tps.get ⟨i, hi⟩)] := by
  induction tps generalizing s i with
  | nil => exact absurd hi (by simp)
  | cons a t ih =>
    rw [List.enumFrom_cons, List.filter_cons]
    obtain ⟨hna0, hnd'⟩ :
        (∀ x ∈ t, ¬ x.channel = a.channel) ∧ (t.map Touchpoint.channel).Nodup := by
      simpa using hnd
    have hna : a.channel ∉ t.map Touchpoint.channel := by
      intro hmem
      obtain ⟨x, hx, hxc⟩ := List.mem_map.mp hmem
      exact hna0 x hx hxc
    cases i with
    | zero =>
      simp only [List.get]
      have hb : (a.channel == a.channel) = true := by simp
      simp only [hb, if_pos]
      rw [filter_channel_nil t (s + 1) a.channel hna]
      simp
    | succ i' =>
      have hi' : i' < t.length := by simpa using hi
      simp only [List.get]
      have hmem : (t.get ⟨i', hi'⟩).channel ∈ t.map Touchpoint.channel :=
        List.mem_map_of_mem Touchpoint.channel (t.get_mem i' hi')
      have hne : ¬ (a.channel = (t.get ⟨i', hi'⟩).channel) := by
        intro hac
        exact hna (hac ▸ hmem)
      have hb : (a.channel == (t.get ⟨i', hi'⟩).channel) = false := by simpa using hne
      simp only [hb, Bool.false_eq_true, if_false]
      rw [ih (s + 1) i' hi' hnd']
      rw [show s + 1 + i' = s + (i' + 1) from by omega]

/-- Claim C10: on a journey with pairwise distinct channels, time-decay
attribution is strictly monotone in recency.  The decay factor
`decay = 0.5 ^ (1 / half_life)` lies in `(0, 1)` exactly when the half-life is
a (finite) positive value, so later touchpoints receive strictly larger
normalised weights. -/
theorem time_decay_recency_monotone (tps : List Touchpoint) (decay : ℚ)
    (i j : ℕ) (hij : i < j) (hj : j < tps.length)
    (hd0 : 0 < decay) (hd1 : decay < 1)
    (hnd : (tps.map Touchpoint.channel).Nodup) :
    lookupCredit (time_decay_attribution tps decay)
        ((tps.get ⟨i, lt_trans hij hj⟩).channel) <
      lookupCredit (time_decay_attribution tps decay)
        ((tps.get ⟨j, hj⟩).channel) := by
  have hi : i < tps.length := lt_trans hij hj
  rw [lookupCredit_time_decay, lookupCredit_time_decay]
  have he : tps.enum = tps.enumFrom 0 := rfl
  rw [he, filter_channel_enumFrom tps 0 i hi hnd,
    filter_channel_enumFrom tps 0 j hj hnd]
  simp only [List.map_cons, List.map_nil, List.sum_cons, List.sum_nil,
    add_zero, zero_add]
  have hne : tps ≠ [] := by
    intro h0
    rw [h0] at hj
    exact absurd hj (by simp)
  have hW : 0 < ((tps.enumFrom 0).map
      (fun p => decay ^ (tps.length - p.1 - 1))).sum := by
    apply List.sum_pos
    · intro x hx
      obtain ⟨p, _, hp⟩ := List.mem_map.mp hx
      exact hp ▸ pow_pos hd0 _
    · simp [hne]
  rw [div_lt_div_iff_of_pos_right hW]
  exact pow_lt_pow_right_of_lt_one₀ hd0 hd1 (by omega)

/-- Witness for C10 on the journey `[a, b]` with `decay = 1/2`: channel `b`
(the more recent touchpoint) gets strictly more credit than channel `a`. -/
theorem time_decay_recency_monotone_witness :
    lookupCredit (time_decay_attribution [⟨"a"⟩, ⟨"b"⟩] (1/2)) ("a") <
      lookupCredit (time_decay_attribution [⟨"a"⟩, ⟨"b"⟩] (1/2)) ("b") :=
  time_decay_recency_monotone [⟨"a"⟩, ⟨"b"⟩] (1/2) 0 1 (by norm_num)
    (by norm_num) (by norm_num) (by norm_num) (by simp)

/-- Claim C8: every documented edge case of the metric calculators returns a
sentinel value and a descriptive message instead of raising: zero denominator
in ROAS, ROI, CPA, CPM, CPC, CTR, CVR, MER, CAC (CPA and CAC return the
infinite sentinel, the others 0), an unknown subscription tier in LTV, and a
profit margin outside `(0, 1]` in break-even ROAS. -/
theorem metric_edge_cases :
    (∀ revenue : ℚ, calculate_roas revenue 0 =
      (MetricVal.val 0, "Cannot calculate ROAS with zero ad spend")) ∧
    (∀ revenue : ℚ, calculate_roi revenue 0 =
      (MetricVal.val 0, "Cannot calculate ROI with zero cost")) ∧
    (∀ ad_spend : ℚ, calculate_cpa ad_spend 0 =
      (MetricVal.infinity, "No conversions to calculate CPA")) ∧
    (∀ ad_spend : ℚ, calculate_cpm ad_spend 0 =
      (MetricVal.val 0, "No impressions to calculate CPM")) ∧
    (∀ ad_spend : ℚ, calculate_cpc ad_spend 0 =
      (MetricVal.val 0, "No clicks to calculate CPC")) ∧
    (∀ clicks : ℤ, calculate_ctr clicks 0 =
      (MetricVal.val 0, "No impressions to calculate CTR")) ∧
    (∀ conversions : ℤ, calculate_cvr conversions 0 =
      (MetricVal.val 0, "No clicks to calculate conversion rate")) ∧
    (∀ total_revenue : ℚ, calculate_mer total_revenue 0 =
      (MetricVal.val 0, "Cannot calculate MER with zero ad spend")) ∧
    (∀ cost : ℚ, calculate_cac cost 0 =
      (MetricVal.infinity, "No customers acquired")) ∧
    (∀ m : ℚ, calculate_ltv ("premium") m =
      (MetricVal.val 0, "Invalid subscription tier")) ∧
    (∀ pm : ℚ, pm ≤ 0 ∨ 1 < pm → calculate_breakeven_roas pm =
      (MetricVal.val 0, "Invalid profit margin (must be between 0 and 1)")) := by
  refine ⟨fun r => ?_, fun r => ?_, fun a => ?_, fun a => ?_, fun a => ?_,
    fun a => ?_, fun a => ?_, fun a => ?_, fun a => ?_, fun m => ?_,
    fun pm h => ?_⟩
  · simp [calculate_roas]
  · simp [calculate_roi]
  · simp [calculate_cpa]
  · simp [calculate_cpm]
  · simp [calculate_cpc]
  · simp [calculate_ctr]
  · simp [calculate_cvr]
  · simp [calculate_mer]
  · simp [calculate_cac]
  · simp [calculate_ltv, get_tiers, List.lookup]
  · rw [calculate_breakeven_roas, if_pos h]

/-- Witness for C8: a profit margin of 2 (outside `(0, 1]`) yields the
sentinel result. -/
theorem metric_edge_cases_witness :
    calculate_breakeven_roas 2 =
      (MetricVal.val 0, "Invalid profit margin (must be between 0 and 1)") :=
  metric_edge_cases.2.2.2.2.2.2.2.2.2.2 2 (Or.inr (by norm_num))

/-- Adding an amount to the budget of a present key raises the budget sum by
exactly that amount. -/
theorem allocSum_addToBudget (l : List (String × AllocationEntry))
    (key : String) (amt : ℚ) (hk : ∃ e, (key, e) ∈ l) :
    allocSum (addToBudget l key amt) = allocSum l + amt := by
  induction l with
  | nil => simp at hk
  | cons a t ih =>
    obtain ⟨a1, a2⟩ := a
    obtain ⟨e, he⟩ := hk
    by_cases h : a1 = key
    · simp only [addToBudget, if_pos h, allocSum, List.map_cons, List.sum_cons]
      ring
    · have hmem : (key, e) ∈ t := by
        rcases List.mem_cons.mp he with heq | hmem
        · exact absurd (congrArg Prod.fst heq).symm h
        · exact hmem
      simp only [addToBudget, if_neg h, allocSum, List.map_cons, List.sum_cons]
      have := ih ⟨e, hmem⟩
      simp only [allocSum] at this
      rw [this]
      ring

/-- The fold behind `max(..., key=...)` returns its seed or a list element. -/
theorem bestAllocation_mem (init : String × AllocationEntry)
    (l : List (String × AllocationEntry)) :
    bestAllocation init l = init ∨ bestAllocation init l ∈ l := by
  induction l generalizing init with
  | nil => left; rfl
  | cons a t ih =>
    have hstep : bestAllocation init (a :: t) =
        bestAllocation (if init.2.budget < a.2.budget then a else init) t := rfl
    rcases ih (if init.2.budget < a.2.budget then a else init) with h | h
    · by_cases hc : init.2.budget < a.2.budget
      · right
        rw [hstep, h, if_pos hc]
        exact List.mem_cons_self a t
      · left
        rw [hstep, h, if_neg hc]
    · right
      rw [hstep]
      exact List.mem_cons_of_mem a h

/-- The fold behind `max(..., key=...)` dominates its seed and every element. -/
theorem bestAllocation_le (init : String × AllocationEntry)
    (l : List (String × AllocationEntry)) :
    ∀ p, (p = init ∨ p ∈ l) →
      p.2.budget ≤ (bestAllocation init l).2.budget := by
  induction l generalizing init with
  | nil =>
    rintro p (rfl | hp)
    · exact le_refl _
    · simp at hp
  | cons a t ih =>
    intro p hp
    have hstep : bestAllocation init (a :: t) =
        bestAllocation (if init.2.budget < a.2.budget then a else init) t := rfl
    have hinit : init.2.budget ≤
        (if init.2.budget < a.2.budget then a else init).2.budget := by
      by_cases hc : init.2.budget < a.2.budget
      · rw [if_pos hc]; exact le_of_lt hc
      · rw [if_neg hc]
    have ha : a.2.budget ≤
        (if init.2.budget < a.2.budget then a else init).2.budget := by
      by_cases hc : init.2.budget < a.2.budget
      · rw [if_pos hc]
      · rw [if_neg hc]; exact le_of_not_lt hc
    rw [hstep]
    rcases hp with rfl | hp
    · exact le_trans hinit (ih _ _ (Or.inl rfl))
    · rcases List.mem_cons.mp hp with rfl | hp
      · exact le_trans ha (ih _ _ (Or.inl rfl))
      · exact ih _ _ (Or.inr hp)

/-- The function `maxBudgetKey` returns the key of an entry whose budget is maximal. -/
theorem maxBudgetKey_spec (l : List (String × AllocationEntry)) (k : String)
    (h : maxBudgetKey l = some k) :
    ∃ e, (k, e) ∈ l ∧ ∀ p ∈ l, p.2.budget ≤ e.budget := by
  cases l with
  | nil => simp [maxBudgetKey] at h
  | cons x rest =>
    have hk : (bestAllocation x rest).1 = k := by
      simpa [maxBudgetKey] using h
    refine ⟨(bestAllocation x rest).2, ?_, ?_⟩
    · have hpair : (k, (bestAllocation x rest).2) = bestAllocation x rest := by
        rw [← hk]
      rw [hpair]
      rcases bestAllocation_mem x rest with h1 | h1
      · rw [h1]; exact List.mem_cons_self x rest
      · exact List.mem_cons_of_mem x h1
    · intro p hp
      exact bestAllocation_le x rest p (List.mem_cons.mp hp)

/-- Claim C3: whenever the budget allocator returns, the post-correction
budgets sum to the total budget exactly, and whenever the pre-correction sum
differs from the total, the whole residual is added to the single channel whose
(rounded, clamped) allocation is largest. -/
theorem budget_allocation_total_correct (total_budget : ℚ)
    (channel_performance : List (String × ChannelPerf))
    (alloc : List (String × AllocationEntry))
    (h : calculate_optimal_budget_allocation total_budget channel_performance
      = some alloc) :
    allocSum alloc = total_budget ∧
    (allocSum (rawAllocation total_budget channel_performance) ≠ total_budget →
      ∃ (largest : String) (e : AllocationEntry),
        maxBudgetKey (rawAllocation total_budget channel_performance)
          = some largest ∧
        (largest, e) ∈ rawAllocation total_budget channel_performance ∧
        (∀ p ∈ rawAllocation total_budget channel_performance,
          p.2.budget ≤ e.budget) ∧
        alloc = addToBudget (rawAllocation total_budget channel_performance)
          largest
          (total_budget -
            allocSum (rawAllocation total_budget channel_performance))) := by
  simp only [calculate_optimal_budget_allocation] at h
  by_cases hg : total_efficiency channel_performance = 0 ∧
      channel_performance ≠ []
  · rw [if_pos hg] at h
    exact absurd h (by simp)
  · rw [if_neg hg] at h
    by_cases hs : allocSum (rawAllocation total_budget channel_performance)
        = total_budget
    · rw [if_pos hs] at h
      have halloc : alloc = rawAllocation total_budget channel_performance :=
        (Option.some.inj h).symm
      subst halloc
      exact ⟨hs, fun hab => absurd hs hab⟩
    · rw [if_neg hs] at h
      cases hmk : maxBudgetKey (rawAllocation total_budget channel_performance) with
      | none =>
        rw [hmk] at h
        exact absurd h (by simp)
      | some largest =>
        rw [hmk] at h
        have halloc : alloc =
            addToBudget (rawAllocation total_budget channel_performance) largest
              (total_budget -
                allocSum (rawAllocation total_budget channel_performance)) :=
          (Option.some.inj h).symm
        obtain ⟨e, hmem, hle⟩ :=
          maxBudgetKey_spec (rawAllocation total_budget channel_performance)
            largest hmk
        constructor
        · rw [halloc, allocSum_addToBudget _ _ _ ⟨e, hmem⟩]
          ring
        · intro hne
          exact ⟨largest, e, rfl, hmem, hle, halloc⟩

/-- Witness for C3: budget 1000 over two channels; the raw allocations
(400.00 clamped at the 40% cap and 285.71 after rounding) sum to 685.71, and
the residual 314.29 goes to the largest channel, which ends at 714.29, so the
corrected budgets sum to 1000. -/
theorem budget_allocation_total_correct_witness :
    allocSum [("a", ⟨71429/100, 40, 5/2⟩), ("b", ⟨28571/100, 143/5, 1⟩)] = 1000 :=
  (budget_allocation_total_correct 1000
    [("a", ⟨3, 1/50, 2⟩), ("b", ⟨1, 1/100, 1⟩)]
    [("a", ⟨71429/100, 40, 5/2⟩), ("b", ⟨28571/100, 143/5, 1⟩)]
    (by
      simp [calculate_optimal_budget_allocation, rawAllocation, total_efficiency,
        efficiency_score, clamped_budget, pythonRound, roundHalfEven, allocSum,
        maxBudgetKey, bestAllocation, addToBudget]
      norm_num [Int.fract])).1

/-- Claim C4: for a positive total budget, every channel's pre-correction
allocation (the proportional share after the min/max clamp, before rounding)
lies between 10% and 40% of the total. -/
theorem budget_allocation_clamp_bounds (total_budget : ℚ)
    (channel_performance : List (String × ChannelPerf))
    (p : String × ChannelPerf) (htotal : 0 < total_budget)
    (hp : p ∈ channel_performance) :
    total_budget * 0.10 ≤ clamped_budget total_budget (efficiency_score p.2)
        (total_efficiency channel_performance) ∧
      clamped_budget total_budget (efficiency_score p.2)
        (total_efficiency channel_performance) ≤ total_budget * 0.40 := by
  constructor
  · apply le_min
    · have h14 : (0.10 : ℚ) ≤ 0.40 := by norm_num
      exact mul_le_mul_of_nonneg_left h14 (le_of_lt htotal)
    · exact le_max_left _ _
  · exact min_le_left _ _

/-- Witness for C4: a one-channel input with total budget 100. -/
theorem budget_allocation_clamp_bounds_witness :
    (100 : ℚ) * 0.10 ≤ clamped_budget 100 (efficiency_score ⟨1, 1/100, 1⟩)
        (total_efficiency [("a", ⟨1, 1/100, 1⟩)]) ∧
      clamped_budget 100 (efficiency_score ⟨1, 1/100, 1⟩)
        (total_efficiency [("a", ⟨1, 1/100, 1⟩)]) ≤ 100 * 0.40 :=
  budget_allocation_clamp_bounds 100 [("a", ⟨1, 1/100, 1⟩)]
    ("a", ⟨1, 1/100, 1⟩) (by norm_num) (by simp)
